import Mathlib

/-!
Formal model of the candle signal-analysis engine.

The embedding covers the analysis pipeline of analyze_network.py
(coordinate validation, signal classification, dead-zone confirmation
via a haversine radius query) and the per-file trajectory aggregation of
app.py (duration and haversine path length).  Data-frame rows become
records, column-wise boolean masking becomes list filtering by a
predicate, and the numeric columns are modelled over the real numbers,
with missing values (NaN) made explicit.
-/

open scoped Classical

/-- A raw tabular cell of a coordinate column: a numeric value, a missing
value (NaN), or a non-numeric token. -/
inductive RawVal : Type
  | num (x : ℝ)
  | nan
  | text

/-- One cell under pandas to_numeric with coercion of errors: numbers are
kept, everything else becomes NaN. -/
def toNumericRV : RawVal → RawVal
  | .num x => .num x
  | _ => .nan

/-- The numeric value held by a cell, when one is present. -/
def toNumericOpt : RawVal → Option ℝ
  | .num x => some x
  | _ => none

/-- The float a numeric cell holds (0 as a dummy for NaN; every row that
reaches a geometric stage holds actual numbers in both coordinates). -/
def valOf : RawVal → ℝ
  | .num x => x
  | _ => 0

/-- A cell that is already numeric or NaN, i.e. one that to_numeric
leaves unchanged. -/
def numOrNan : RawVal → Prop
  | .text => False
  | _ => True

/-- One measurement record, a row of the combined data frame:
Latitude, Longitude, SignalStrength_dBm, NetworkType, Band, Time.
The signal column is read as numeric with NaN for missing values; the
time column is seconds, with none for an unparseable timestamp. -/
structure Rec where
  lat : RawVal
  lon : RawVal
  signal : Option ℝ
  networkType : String
  band : ℤ
  time : Option ℝ

def noNet : String := ""

instance : Inhabited Rec := ⟨⟨RawVal.nan, RawVal.nan, none, noNet, 0, none⟩⟩

/-- Boolean-mask filtering of a frame by a row predicate, as in
df[mask]. -/
noncomputable def filterP {α : Type*} (p : α → Prop) : List α → List α
  | [] => []
  | a :: l => if p a then a :: filterP p l else filterP p l

/-- Rows 30-31 of analyze_network.py: the Latitude and Longitude columns
of the input frame are overwritten with the coerced values; every other
column is untouched. -/
def coerceRec (r : Rec) : Rec :=
  { r with lat := toNumericRV r.lat, lon := toNumericRV r.lon }

/-- The caller-visible state of the input frame after analyze_data has
run (the column assignments mutate the argument in place). -/
def analyze_data_post (df : List Rec) : List Rec := df.map coerceRec

/-- The row mask of lines 33-38: the coerced coordinate is present
(notna) and distinct from 0. -/
def numOk : RawVal → Prop
  | .num x => x ≠ 0
  | _ => False

def isClean (r : Rec) : Prop := numOk r.lat ∧ numOk r.lon

/-- df_clean of analyze_data: coerce both coordinate columns, keep the
rows whose coordinates are present and nonzero. -/
noncomputable def dfClean (df : List Rec) : List Rec :=
  filterP isClean (df.map coerceRec)

/-- A pandas comparison on an optional numeric cell: NaN compares false
against everything. -/
def optHolds (p : ℝ → Prop) : Option ℝ → Prop
  | some s => p s
  | none => False

/-- Valid-signal mask (line 49-52): -150 < SignalStrength_dBm < 0. -/
def sigValid (r : Rec) : Prop := optHolds (fun s => -150 < s ∧ s < 0) r.signal

/-- Invalid-signal mask (line 63): SignalStrength_dBm <= -150. -/
def sigInvalid (r : Rec) : Prop := optHolds (fun s => s ≤ -150) r.signal

/-- The excluded-sentinel class of the spec: SignalStrength_dBm >= 0. -/
def sigSentinel (r : Rec) : Prop := optHolds (fun s => 0 ≤ s) r.signal

noncomputable def dfValidSignal (df : List Rec) : List Rec :=
  filterP sigValid (dfClean df)

noncomputable def dfInvalidSignal (df : List Rec) : List Rec :=
  filterP sigInvalid (dfClean df)

/-! ### Geometry -/

/-- np.radians: degrees to radians. -/
noncomputable def radians (d : ℝ) : ℝ := d * (Real.pi / 180)

/-- The haversine metric of sklearn BallTree on the unit sphere, on
radian coordinates: D = 2 asin sqrt(sin^2(dlat/2) + cos lat1 cos lat2
sin^2(dlon/2)). -/
noncomputable def haversineMetric (lat1 lon1 lat2 lon2 : ℝ) : ℝ :=
  2 * Real.arcsin (Real.sqrt
    (Real.sin ((lat2 - lat1) / 2) ^ 2 +
      Real.cos lat1 * Real.cos lat2 * Real.sin ((lon2 - lon1) / 2) ^ 2))

noncomputable def latRad (r : Rec) : ℝ := radians (valOf r.lat)

noncomputable def lonRad (r : Rec) : ℝ := radians (valOf r.lon)

/-- The neighbor test performed by the radius query at line 83:
BallTree.query_radius counts the points whose metric distance is at most
r, with r = 10 / 6371000 radians. -/
noncomputable def nearPred (p q : Rec) : Prop :=
  haversineMetric (latRad p) (lonRad p) (latRad q) (lonRad q) ≤ 10 / 6371000

/-- counts of line 83: the number of valid-signal rows within the query
radius of the invalid-signal row q. -/
noncomputable def neighborCount (valid : List Rec) (q : Rec) : ℕ :=
  (filterP (fun p => nearPred p q) valid).length

/-- Lines 83-87: keep the invalid-signal rows with zero valid neighbors. -/
noncomputable def confirmedNoSignal (valid invalid : List Rec) : List Rec :=
  filterP (fun q => neighborCount valid q = 0) invalid

/-- Ground distance in meters between two rows, from the spec: the
haversine central angle scaled by the earth radius 6371000 m. -/
noncomputable def groundDist (p q : Rec) : ℝ :=
  6371000 * haversineMetric (latRad p) (lonRad p) (latRad q) (lonRad q)

/-- Modelled from the spec contract of the Dead-Zone Confirmer: the
subset of the invalid-signal set whose members have zero elements of the
valid-signal set within 10 meters of ground distance. -/
noncomputable def specConfirmed (valid invalid : List Rec) : List Rec :=
  filterP (fun q => ∀ p ∈ valid, ¬ groundDist p q ≤ 10) invalid

/-! ### analyze_data -/

/-- The three return shapes of analyze_data: a single frame df_clean
when the validated set is empty (line 44); the pair (df_clean, empty)
when the valid-signal set is empty (line 59); the pair
(df_valid_signal, confirmed_no_signal_df) otherwise (line 105). -/
inductive AnalyzeResult : Type
  | cleanEmpty (clean : List Rec)
  | noValidSignal (clean : List Rec) (confirmed : List Rec)
  | full (validSignal : List Rec) (confirmed : List Rec)

/-- analyze_data of analyze_network.py, lines 25-105 (ignoring the
printed reports). -/
noncomputable def analyze_data (df : List Rec) : AnalyzeResult :=
  let dfc := dfClean df
  if dfc = [] then .cleanEmpty dfc
  else
    let dvs := filterP sigValid dfc
    if dvs = [] then .noValidSignal dfc []
    else
      let dis := filterP sigInvalid dfc
      let confirmed :=
        if dis ≠ [] ∧ dvs ≠ [] then confirmedNoSignal dvs dis else []
      .full dvs confirmed

/-- app.py line 84: the result of analyze_data is unpacked into the pair
(valid_df, no_signal_df).  A 2-tuple unpacks; the single data frame
returned in the clean-empty case iterates over its column labels (the
schema has six columns) and fails to unpack into two names, raising
ValueError — modelled as none. -/
def consume : AnalyzeResult → Option (List Rec × List Rec)
  | .cleanEmpty _ => none
  | .noValidSignal a b => some (a, b)
  | .full a b => some (a, b)

/-! ### Trajectory aggregation (app.py) -/

/-- calculate_haversine_distance of app.py, lines 17-31: great-circle
distance in kilometers between two points given in decimal degrees. -/
noncomputable def calculate_haversine_distance (lat1 lon1 lat2 lon2 : ℝ) : ℝ :=
  let rlat1 := radians lat1
  let rlon1 := radians lon1
  let rlat2 := radians lat2
  let rlon2 := radians lon2
  let a := Real.sin ((rlat2 - rlat1) / 2) ^ 2 +
    Real.cos rlat1 * Real.cos rlat2 * Real.sin ((rlon2 - rlon1) / 2) ^ 2
  let c := 2 * Real.arcsin (Real.sqrt a)
  c * 6371

/-- The timestamp held by a row (0 as a dummy for a missing one; rows
that reach the sorted trajectory always hold a timestamp). -/
def timeVal (r : Rec) : ℝ := r.time.getD 0

/-- A row whose Time cell parsed. -/
def timeOk (r : Rec) : Prop := ∃ t, r.time = some t

noncomputable def insertByTime (r : Rec) : List Rec → List Rec
  | [] => [r]
  | s :: l => if timeVal r ≤ timeVal s then r :: s :: l else s :: insertByTime r l

/-- sort_values of app.py line 55: ascending sort of the rows by their
timestamp. -/
noncomputable def sortByTime : List Rec → List Rec
  | [] => []
  | r :: l => insertByTime r (sortByTime l)

/-- app.py lines 46-55 applied to one uploaded file: coerce and filter
the coordinates, drop rows with unparseable timestamps, sort by time. -/
noncomputable def prepFile (df : List Rec) : List Rec :=
  sortByTime (filterP timeOk (dfClean df))

/-- app.py lines 58-62: the duration contributed by one file, i.e. the
span from the first to the last row of its sorted cleaned frame
(0 when the frame is empty, in which case the code adds nothing). -/
noncomputable def fileDuration (df : List Rec) : ℝ :=
  let l := prepFile df
  if l = [] then 0
  else timeVal (l.getLastD default) - timeVal (l.headD default)

/-- app.py lines 64-74: the distance contributed by one file — the sum
of the vectorized haversine distances between the shifted coordinate
arrays lats[:-1], lons[:-1] and lats[1:], lons[1:], taken only when
more than one row remains. -/
noncomputable def fileDistance (df : List Rec) : ℝ :=
  let l := prepFile df
  if 1 < l.length then
    ((l.zip l.tail).map (fun pq =>
      calculate_haversine_distance (valOf pq.1.lat) (valOf pq.1.lon)
        (valOf pq.2.lat) (valOf pq.2.lon))).sum
  else 0

/-- The accumulation loop of app.py lines 40-74 over the uploaded
files: total_duration_seconds and total_distance_km. -/
noncomputable def processFiles (files : List (List Rec)) : ℝ × ℝ :=
  files.foldl (fun acc f => (acc.1 + fileDuration f, acc.2 + fileDistance f)) (0, 0)

/-- Modelled from the spec of the Trajectory Aggregator: the sum of the
haversine distances between each consecutive pair of rows. -/
noncomputable def pathSum : List Rec → ℝ
  | a :: b :: t =>
      calculate_haversine_distance (valOf a.lat) (valOf a.lon)
        (valOf b.lat) (valOf b.lon) + pathSum (b :: t)
  | _ => 0

/-- Modelled from the spec of the Trajectory Aggregator: last timestamp
minus first timestamp of a (sorted) sequence of rows, 0 when empty. -/
noncomputable def spanSpec (l : List Rec) : ℝ :=
  if l = [] then 0
  else timeVal (l.getLastD default) - timeVal (l.headD default)

/-- The claim form of the validator mask: both coordinates numeric,
non-null and not exactly zero. -/
def goodCoords (r : Rec) : Prop :=
  (∃ x, toNumericOpt r.lat = some x ∧ x ≠ 0) ∧
  (∃ y, toNumericOpt r.lon = some y ∧ y ≠ 0)

/-! ### Concrete rows for the spec scenarios -/

def netA : String := "LTE"

/-- The valid-signal row of the first spec scenario: (lat 10, lon 20,
-80 dBm). -/
def recVA : Rec := ⟨RawVal.num 10, RawVal.num 20, some (-80), netA, 3, some 0⟩

/-- The invalid-signal row of both spec scenarios: (lat 10.00005,
lon 20, -160 dBm), about 5.5 m from recVA. -/
def recIA : Rec := ⟨RawVal.num 10.00005, RawVal.num 20, some (-160), netA, -1, some 1⟩

/-- The valid-signal row of the second spec scenario: (lat 10.01,
lon 20, -80 dBm), about 1.1 km from recIA. -/
def recVB : Rec := ⟨RawVal.num 10.01, RawVal.num 20, some (-80), netA, 3, some 0⟩

/-- A valid-signal row at ground distance exactly 10 m north of recI3. -/
noncomputable def recV3 : Rec :=
  ⟨RawVal.num (1 + 10 / 6371000 * (180 / Real.pi)), RawVal.num 20,
    some (-80), netA, 3, some 0⟩

/-- A valid-signal row at ground distance exactly 9.99 m north of recI3. -/
noncomputable def recV3b : Rec :=
  ⟨RawVal.num (1 + 9.99 / 6371000 * (180 / Real.pi)), RawVal.num 20,
    some (-80), netA, 3, some 0⟩

/-- An invalid-signal row at (lat 1, lon 20). -/
def recI3 : Rec := ⟨RawVal.num 1, RawVal.num 20, some (-160), netA, -1, some 0⟩

/-- An invalid-signal row with usable coordinates. -/
def recInv : Rec := ⟨RawVal.num 1, RawVal.num 2, some (-160), netA, -1, some 0⟩

/-- A row with the (0, 0) placeholder coordinates. -/
def recZero : Rec := ⟨RawVal.num 0, RawVal.num 0, some (-80), netA, 3, some 0⟩

/-- A validated row whose signal strength is missing (NaN). -/
def recNaN : Rec := ⟨RawVal.num 1, RawVal.num 2, none, netA, 3, none⟩

/-- A row whose Latitude cell holds a non-numeric token. -/
def recText : Rec := ⟨RawVal.text, RawVal.num 5, some (-80), netA, 3, some 0⟩

/-! ### List filtering lemmas -/

theorem mem_filterP {α : Type*} (p : α → Prop) (l : List α) (a : α) :
    a ∈ filterP p l ↔ a ∈ l ∧ p a := by
  induction l with
  | nil => simp [filterP]
  | cons b t ih =>
    by_cases hb : p b
    · simp only [filterP, if_pos hb, List.mem_cons, ih]
      constructor
      · rintro (rfl | ⟨ht, hp⟩)
        · exact ⟨Or.inl rfl, hb⟩
        · exact ⟨Or.inr ht, hp⟩
      · rintro ⟨rfl | ht, hp⟩
        · exact Or.inl rfl
        · exact Or.inr ⟨ht, hp⟩
    · simp only [filterP, if_neg hb, List.mem_cons, ih]
      constructor
      · rintro ⟨ht, hp⟩
        exact ⟨Or.inr ht, hp⟩
      · rintro ⟨rfl | ht, hp⟩
        · exact absurd hp hb
        · exact ⟨ht, hp⟩

theorem length_filterP_le {α : Type*} (p : α → Prop) (l : List α) :
    (filterP p l).length ≤ l.length := by
  induction l with
  | nil => simp [filterP]
  | cons b t ih =>
    by_cases hb : p b
    · simpa [filterP, if_pos hb] using Nat.succ_le_succ ih
    · simp only [filterP, if_neg hb, List.length_cons]
      exact Nat.le_succ_of_le ih

theorem filterP_eq_nil_iff {α : Type*} (p : α → Prop) (l : List α) :
    filterP p l = [] ↔ ∀ a ∈ l, ¬ p a := by
  induction l with
  | nil => simp [filterP]
  | cons b t ih =>
    by_cases hb : p b
    · simp [filterP, if_pos hb, hb]
    · simp [filterP, if_neg hb, hb, ih]

theorem filterP_congr {α : Type*} {p q : α → Prop} {l : List α}
    (h : ∀ a ∈ l, (p a ↔ q a)) : filterP p l = filterP q l := by
  induction l with
  | nil => rfl
  | cons b t ih =>
    have hb := h b (List.mem_cons_self b t)
    have ht : ∀ a ∈ t, (p a ↔ q a) := fun a ha => h a (List.mem_cons_of_mem b ha)
    by_cases hpb : p b
    · rw [filterP, filterP, if_pos hpb, if_pos (hb.mp hpb), ih ht]
    · rw [filterP, filterP, if_neg hpb, if_neg (fun hq => hpb (hb.mpr hq)), ih ht]

theorem filterP_ne_nil_of_base {α : Type*} {p : α → Prop} {l : List α}
    (h : filterP p l ≠ []) : l ≠ [] := by
  intro hl
  subst hl
  exact h rfl

/-! ### Geometry lemmas -/

theorem haversineMetric_same_lon (lat lon δ : ℝ) (h0 : 0 ≤ δ)
    (h1 : δ ≤ Real.pi) : haversineMetric lat lon (lat + δ) lon = δ := by
  have hpi := Real.pi_pos
  unfold haversineMetric
  have e1 : lat + δ - lat = δ := by ring
  have e2 : lon - lon = 0 := by ring
  rw [e1, e2]
  have e3 : (0 : ℝ) / 2 = 0 := by norm_num
  rw [e3, Real.sin_zero]
  have e4 : Real.sin (δ / 2) ^ 2 + Real.cos lat * Real.cos (lat + δ) * 0 ^ 2
      = Real.sin (δ / 2) ^ 2 := by ring
  rw [e4, Real.sqrt_sq_eq_abs]
  have hs : 0 ≤ Real.sin (δ / 2) :=
    Real.sin_nonneg_of_nonneg_of_le_pi (by linarith) (by linarith)
  rw [abs_of_nonneg hs, Real.arcsin_sin (by linarith) (by linarith)]
  ring

theorem haversineMetric_comm (a b c d : ℝ) :
    haversineMetric a b c d = haversineMetric c d a b := by
  unfold haversineMetric
  have hs : ∀ x y : ℝ, Real.sin ((x - y) / 2) ^ 2 = Real.sin ((y - x) / 2) ^ 2 := by
    intro x y
    have hneg : (x - y) / 2 = -((y - x) / 2) := by ring
    rw [hneg, Real.sin_neg]
    ring
  rw [hs c a, hs d b, mul_comm (Real.cos a) (Real.cos c)]

/-! ### Pipeline lemmas -/

theorem numOk_toNumericRV (v : RawVal) : numOk (toNumericRV v) ↔ numOk v := by
  cases v <;> simp [toNumericRV, numOk]

theorem isClean_coerceRec (r : Rec) : isClean (coerceRec r) ↔ isClean r := by
  unfold isClean coerceRec
  simp only [numOk_toNumericRV]

theorem coerceRec_clean {r : Rec} (h : isClean r) : coerceRec r = r := by
  obtain ⟨la, lo, s, n, b, t⟩ := r
  obtain ⟨h1, h2⟩ := h
  cases la with
  | num x =>
    cases lo with
    | num y => rfl
    | nan => exact h2.elim
    | text => exact h2.elim
  | nan => exact h1.elim
  | text => exact h1.elim

/-- Coercing the coordinate columns and then masking equals masking the
raw rows directly: a row that survives must already hold numeric nonzero
coordinates, which the coercion leaves unchanged. -/
theorem dfClean_eq (df : List Rec) : dfClean df = filterP isClean df := by
  unfold dfClean
  induction df with
  | nil => rfl
  | cons r t ih =>
    by_cases h : isClean r
    · rw [List.map_cons, filterP, if_pos ((isClean_coerceRec r).mpr h),
        coerceRec_clean h, filterP, if_pos h, ih]
    · rw [List.map_cons, filterP, if_neg (fun hc => h ((isClean_coerceRec r).mp hc)),
        filterP, if_neg h, ih]

theorem mem_dfClean (df : List Rec) (r : Rec) :
    r ∈ dfClean df ↔ r ∈ df ∧ isClean r := by
  rw [dfClean_eq, mem_filterP]

theorem numOk_iff_toNumericOpt (v : RawVal) :
    numOk v ↔ ∃ x, toNumericOpt v = some x ∧ x ≠ 0 := by
  cases v <;> simp [numOk, toNumericOpt]

theorem isClean_iff_goodCoords (r : Rec) : isClean r ↔ goodCoords r := by
  unfold isClean goodCoords
  rw [numOk_iff_toNumericOpt, numOk_iff_toNumericOpt]

theorem neighborCount_eq_zero_iff (V : List Rec) (q : Rec) :
    neighborCount V q = 0 ↔ ∀ p ∈ V, ¬ nearPred p q := by
  unfold neighborCount
  rw [List.length_eq_zero, filterP_eq_nil_iff]

theorem nearPred_iff_groundDist (p q : Rec) :
    nearPred p q ↔ groundDist p q ≤ 10 := by
  unfold nearPred groundDist
  rw [le_div_iff₀ (by norm_num : (0 : ℝ) < 6371000), mul_comm]

/-- The radius-query confirmer computes exactly the spec contract of the
Dead-Zone Confirmer. -/
theorem confirmedNoSignal_eq_spec (V I : List Rec) :
    confirmedNoSignal V I = specConfirmed V I := by
  unfold confirmedNoSignal specConfirmed
  apply filterP_congr
  intro q _
  rw [neighborCount_eq_zero_iff]
  constructor
  · intro h p hp
    exact fun hg => h p hp ((nearPred_iff_groundDist p q).mpr hg)
  · intro h p hp
    exact fun hn => h p hp ((nearPred_iff_groundDist p q).mp hn)

/-! ### Facts about the concrete scenario rows -/

@[simp] theorem numOk_num (x : ℝ) : numOk (RawVal.num x) ↔ x ≠ 0 := Iff.rfl

@[simp] theorem optHolds_some (p : ℝ → Prop) (s : ℝ) :
    optHolds p (some s) ↔ p s := Iff.rfl

@[simp] theorem optHolds_none (p : ℝ → Prop) :
    optHolds p (none : Option ℝ) ↔ False := Iff.rfl

theorem nearPred_VA_IA : nearPred recVA recIA := by
  have hpi := Real.pi_pos
  have h4 := Real.pi_le_four
  simp only [nearPred, latRad, lonRad, recVA, recIA, valOf]
  have hrw : radians 10.00005 = radians 10 + 0.00005 * (Real.pi / 180) := by
    unfold radians
    have h : (10.00005 : ℝ) = 10 + 0.00005 := by norm_num
    rw [h]; ring
  rw [hrw, haversineMetric_same_lon _ _ _ (by positivity) (by linarith)]
  linarith

theorem not_nearPred_VB_IA : ¬ nearPred recVB recIA := by
  have hpi := Real.pi_pos
  have h3 := Real.pi_gt_three
  simp only [nearPred, latRad, lonRad, recVB, recIA, valOf]
  rw [haversineMetric_comm]
  have hrw : radians 10.01 = radians 10.00005 + 0.00995 * (Real.pi / 180) := by
    unfold radians
    have h : (10.01 : ℝ) = 10.00005 + 0.00995 := by norm_num
    rw [h]; ring
  rw [hrw, haversineMetric_same_lon _ _ _ (by positivity) (by linarith)]
  intro hle
  linarith

theorem latRad_recV3 : latRad recV3 = radians 1 + 10 / 6371000 := by
  have hpi : Real.pi ≠ 0 := Real.pi_ne_zero
  simp only [latRad, recV3, valOf, radians]
  field_simp
  ring

theorem latRad_recV3b : latRad recV3b = radians 1 + 9.99 / 6371000 := by
  have hpi : Real.pi ≠ 0 := Real.pi_ne_zero
  simp only [latRad, recV3b, valOf, radians]
  field_simp
  ring

theorem metric_V3_I3 :
    haversineMetric (latRad recV3) (lonRad recV3) (latRad recI3) (lonRad recI3)
      = 10 / 6371000 := by
  have h3 := Real.pi_gt_three
  rw [haversineMetric_comm, latRad_recV3]
  simp only [latRad, lonRad, recV3, recI3, valOf]
  rw [haversineMetric_same_lon _ _ _ (by norm_num) (by norm_num; linarith)]

theorem metric_V3b_I3 :
    haversineMetric (latRad recV3b) (lonRad recV3b) (latRad recI3) (lonRad recI3)
      = 9.99 / 6371000 := by
  have h3 := Real.pi_gt_three
  rw [haversineMetric_comm, latRad_recV3b]
  simp only [latRad, lonRad, recV3b, recI3, valOf]
  rw [haversineMetric_same_lon _ _ _ (by norm_num) (by norm_num; linarith)]

theorem nearPred_V3_I3 : nearPred recV3 recI3 := by
  unfold nearPred
  rw [metric_V3_I3]

theorem nearPred_V3b_I3 : nearPred recV3b recI3 := by
  unfold nearPred
  rw [metric_V3b_I3]
  norm_num

theorem groundDist_V3_I3 : groundDist recV3 recI3 = 10 := by
  unfold groundDist
  rw [metric_V3_I3]
  norm_num

theorem groundDist_V3b_I3 : groundDist recV3b recI3 = 9.99 := by
  unfold groundDist
  rw [metric_V3b_I3]
  norm_num

/-! ### Evaluating the pipeline on the scenario inputs -/

theorem isClean_VA : isClean recVA := by norm_num [isClean, recVA]

theorem isClean_IA : isClean recIA := by norm_num [isClean, recIA]

theorem isClean_VB : isClean recVB := by norm_num [isClean, recVB]

theorem isClean_V3 : isClean recV3 := by
  have hpi := Real.pi_pos
  constructor
  · show (1 + 10 / 6371000 * (180 / Real.pi)) ≠ 0
    positivity
  · show (20 : ℝ) ≠ 0
    norm_num

theorem isClean_V3b : isClean recV3b := by
  have hpi := Real.pi_pos
  constructor
  · show (1 + 9.99 / 6371000 * (180 / Real.pi)) ≠ 0
    positivity
  · show (20 : ℝ) ≠ 0
    norm_num

theorem isClean_I3 : isClean recI3 := by norm_num [isClean, recI3]

theorem isClean_Inv : isClean recInv := by norm_num [isClean, recInv]

theorem isClean_NaN : isClean recNaN := by norm_num [isClean, recNaN]

theorem sigValid_valid_row {la lo : RawVal} {n : String} {b : ℤ} {t : Option ℝ} :
    sigValid ⟨la, lo, some (-80), n, b, t⟩ := by
  norm_num [sigValid]

theorem sigInvalid_invalid_row {la lo : RawVal} {n : String} {b : ℤ} {t : Option ℝ} :
    sigInvalid ⟨la, lo, some (-160), n, b, t⟩ := by
  norm_num [sigInvalid]

theorem not_sigValid_invalid_row {la lo : RawVal} {n : String} {b : ℤ} {t : Option ℝ} :
    ¬ sigValid ⟨la, lo, some (-160), n, b, t⟩ := by
  norm_num [sigValid]

theorem not_sigInvalid_valid_row {la lo : RawVal} {n : String} {b : ℤ} {t : Option ℝ} :
    ¬ sigInvalid ⟨la, lo, some (-80), n, b, t⟩ := by
  norm_num [sigInvalid]

/-- Evaluation of analyze_data on a two-row frame consisting of one
valid-signal row and one invalid-signal row, both with usable
coordinates, as a function of the radius test between them. -/
theorem analyze_data_pair (v i : Rec) (hcv : isClean v) (hci : isClean i)
    (hv : sigValid v) (hvi : ¬ sigValid i) (hiv : ¬ sigInvalid v)
    (hi : sigInvalid i) :
    analyze_data [v, i] =
      .full [v] (if nearPred v i then [] else [i]) := by
  have hclean : dfClean [v, i] = [v, i] := by
    rw [dfClean_eq, filterP, if_pos hcv, filterP, if_pos hci, filterP]
  have hdvs : filterP sigValid [v, i] = [v] := by
    rw [filterP, if_pos hv, filterP, if_neg hvi, filterP]
  have hdis : filterP sigInvalid [v, i] = [i] := by
    rw [filterP, if_neg hiv, filterP, if_pos hi, filterP]
  have hconf : confirmedNoSignal [v] [i] = if nearPred v i then [] else [i] := by
    unfold confirmedNoSignal neighborCount
    by_cases hn : nearPred v i
    · rw [if_pos hn, filterP,
        if_neg (by rw [filterP, if_pos hn, filterP]; simp), filterP]
    · rw [if_neg hn, filterP,
        if_pos (by rw [filterP, if_neg hn, filterP]; rfl), filterP]
  simp only [analyze_data]
  rw [hclean, hdvs, hdis,
    if_neg (by simp : ¬ ([v, i] = ([] : List Rec))),
    if_neg (by simp : ¬ ([v] = ([] : List Rec))),
    if_pos ⟨by simp, by simp⟩, hconf]

theorem analyze_exA : analyze_data [recVA, recIA] = .full [recVA] [] := by
  rw [analyze_data_pair recVA recIA isClean_VA isClean_IA
    sigValid_valid_row not_sigValid_invalid_row not_sigInvalid_valid_row
    sigInvalid_invalid_row, if_pos nearPred_VA_IA]

theorem analyze_exB : analyze_data [recVB, recIA] = .full [recVB] [recIA] := by
  rw [analyze_data_pair recVB recIA isClean_VB isClean_IA
    sigValid_valid_row not_sigValid_invalid_row not_sigInvalid_valid_row
    sigInvalid_invalid_row, if_neg not_nearPred_VB_IA]

theorem analyze_exC3 : analyze_data [recV3, recI3] = .full [recV3] [] := by
  rw [analyze_data_pair recV3 recI3 isClean_V3 isClean_I3
    sigValid_valid_row not_sigValid_invalid_row not_sigInvalid_valid_row
    sigInvalid_invalid_row, if_pos nearPred_V3_I3]

theorem analyze_exC3b : analyze_data [recV3b, recI3] = .full [recV3b] [] := by
  rw [analyze_data_pair recV3b recI3 isClean_V3b isClean_I3
    sigValid_valid_row not_sigValid_invalid_row not_sigInvalid_valid_row
    sigInvalid_invalid_row, if_pos nearPred_V3b_I3]

theorem analyze_exInv :
    analyze_data [recInv] = .noValidSignal [recInv] [] := by
  have hclean : dfClean [recInv] = [recInv] := by
    rw [dfClean_eq, filterP, if_pos isClean_Inv, filterP]
  have hdvs : filterP sigValid [recInv] = [] := by
    rw [filterP,
      if_neg (show ¬ sigValid recInv from not_sigValid_invalid_row), filterP]
  simp only [analyze_data]
  rw [hclean, hdvs,
    if_neg (by simp : ¬ ([recInv] = ([] : List Rec))), if_pos rfl]

theorem analyze_exZero : analyze_data [recZero] = .cleanEmpty [] := by
  have hclean : dfClean [recZero] = [] := by
    rw [dfClean_eq, filterP, if_neg (by norm_num [isClean, recZero]), filterP]
  simp only [analyze_data]
  rw [hclean, if_pos rfl]

/-! ### Trajectory lemmas -/

theorem processFiles_loop (files : List (List Rec)) (a b : ℝ) :
    files.foldl (fun acc f => (acc.1 + fileDuration f, acc.2 + fileDistance f)) (a, b)
      = (a + (files.map fileDuration).sum, b + (files.map fileDistance).sum) := by
  induction files generalizing a b with
  | nil => simp
  | cons f t ih =>
    rw [List.foldl_cons, ih, List.map_cons, List.map_cons,
      List.sum_cons, List.sum_cons]
    simp only [Prod.mk.injEq]
    constructor
    · show a + fileDuration f + (List.map fileDuration t).sum = _
      ring
    · show b + fileDistance f + (List.map fileDistance t).sum = _
      ring

theorem pathSum_short (l : List Rec) (h : l.length ≤ 1) : pathSum l = 0 := by
  rcases l with _ | ⟨a, _ | ⟨b, t⟩⟩
  · rfl
  · rfl
  · simp only [List.length_cons] at h
    omega

/-- The vectorized sum over the shifted coordinate arrays equals the sum
over consecutive pairs. -/
theorem zip_shift_eq_pathSum (l : List Rec) :
    ((l.zip l.tail).map (fun pq =>
      calculate_haversine_distance (valOf pq.1.lat) (valOf pq.1.lon)
        (valOf pq.2.lat) (valOf pq.2.lon))).sum = pathSum l := by
  induction l with
  | nil => rfl
  | cons a t ih =>
    cases t with
    | nil => rfl
    | cons b t2 =>
      have ih2 : (((b :: t2).zip t2).map (fun pq =>
          calculate_haversine_distance (valOf pq.1.lat) (valOf pq.1.lon)
            (valOf pq.2.lat) (valOf pq.2.lon))).sum = pathSum (b :: t2) := ih
      show (((a :: b :: t2).zip (b :: t2)).map _).sum = _
      rw [List.zip_cons_cons, List.map_cons, List.sum_cons, ih2]
      show calculate_haversine_distance (valOf a.lat) (valOf a.lon)
          (valOf b.lat) (valOf b.lon) + pathSum (b :: t2) = pathSum (a :: b :: t2)
      rfl

theorem fileDistance_eq_pathSum (df : List Rec) :
    fileDistance df = pathSum (prepFile df) := by
  unfold fileDistance
  by_cases h : 1 < (prepFile df).length
  · rw [if_pos h, zip_shift_eq_pathSum]
  · rw [if_neg h]
    exact (pathSum_short _ (by omega)).symm

theorem fileDuration_eq_spanSpec (df : List Rec) :
    fileDuration df = spanSpec (prepFile df) := rfl

/-! ### Further evaluation helpers -/

theorem confirmed_single (v i : Rec) :
    confirmedNoSignal [v] [i] = if nearPred v i then [] else [i] := by
  unfold confirmedNoSignal neighborCount
  by_cases hn : nearPred v i
  · rw [if_pos hn, filterP,
      if_neg (by rw [filterP, if_pos hn, filterP]; simp), filterP]
  · rw [if_neg hn, filterP,
      if_pos (by rw [filterP, if_neg hn, filterP]; rfl), filterP]

theorem dfClean_single {r : Rec} (h : isClean r) : dfClean [r] = [r] := by
  rw [dfClean_eq, filterP, if_pos h, filterP]

theorem dfClean_pair {v i : Rec} (hv : isClean v) (hi : isClean i) :
    dfClean [v, i] = [v, i] := by
  rw [dfClean_eq, filterP, if_pos hv, filterP, if_pos hi, filterP]

theorem dfValidSignal_pair {v i : Rec} (hv : isClean v) (hi : isClean i)
    (h1 : sigValid v) (h2 : ¬ sigValid i) : dfValidSignal [v, i] = [v] := by
  unfold dfValidSignal
  rw [dfClean_pair hv hi, filterP, if_pos h1, filterP, if_neg h2, filterP]

theorem dfInvalidSignal_pair {v i : Rec} (hv : isClean v) (hi : isClean i)
    (h1 : ¬ sigInvalid v) (h2 : sigInvalid i) :
    dfInvalidSignal [v, i] = [i] := by
  unfold dfInvalidSignal
  rw [dfClean_pair hv hi, filterP, if_neg h1, filterP, if_pos h2, filterP]

theorem dfValidSignal_VA_IA : dfValidSignal [recVA, recIA] = [recVA] :=
  dfValidSignal_pair isClean_VA isClean_IA sigValid_valid_row
    not_sigValid_invalid_row

theorem dfInvalidSignal_VA_IA : dfInvalidSignal [recVA, recIA] = [recIA] :=
  dfInvalidSignal_pair isClean_VA isClean_IA not_sigInvalid_valid_row
    sigInvalid_invalid_row

theorem dfValidSignal_VB_IA : dfValidSignal [recVB, recIA] = [recVB] :=
  dfValidSignal_pair isClean_VB isClean_IA sigValid_valid_row
    not_sigValid_invalid_row

theorem dfInvalidSignal_VB_IA : dfInvalidSignal [recVB, recIA] = [recIA] :=
  dfInvalidSignal_pair isClean_VB isClean_IA not_sigInvalid_valid_row
    sigInvalid_invalid_row

theorem dfValidSignal_Inv : dfValidSignal [recInv] = [] := by
  unfold dfValidSignal
  rw [dfClean_single isClean_Inv, filterP,
    if_neg (show ¬ sigValid recInv from not_sigValid_invalid_row), filterP]

theorem dfInvalidSignal_Inv : dfInvalidSignal [recInv] = [recInv] := by
  unfold dfInvalidSignal
  rw [dfClean_single isClean_Inv, filterP,
    if_pos (show sigInvalid recInv from sigInvalid_invalid_row), filterP]

theorem neighborCount_V3 : neighborCount [recV3] recI3 = 1 := by
  unfold neighborCount
  rw [filterP, if_pos nearPred_V3_I3, filterP]
  rfl

theorem neighborCount_V3b : neighborCount [recV3b] recI3 = 1 := by
  unfold neighborCount
  rw [filterP, if_pos nearPred_V3b_I3, filterP]
  rfl

theorem toNumericRV_of_numOrNan {v : RawVal} (h : numOrNan v) :
    toNumericRV v = v := by
  cases v with
  | num x => rfl
  | nan => rfl
  | text => exact h.elim

/-! ### Claims -/

/-- C1, counterexample.  The claim states that when the valid-signal set
is empty and the invalid-signal set is non-empty, the confirmed set
returned by the analysis equals the invalid-signal set.  On the one-row
input [recInv] the valid-signal set is empty and the invalid-signal set
is [recInv], yet analyze_data returns early with an empty confirmed set,
and [] differs from [recInv]. -/
theorem C1_counterexample :
    dfValidSignal [recInv] = [] ∧ dfInvalidSignal [recInv] = [recInv] ∧
    analyze_data [recInv] = .noValidSignal [recInv] [] ∧
    ([] : List Rec) ≠ [recInv] :=
  ⟨dfValidSignal_Inv, dfInvalidSignal_Inv, analyze_exInv, by simp⟩

/-- C1, amended.  When the valid-signal set is empty (and the
invalid-signal set is non-empty), analyze_data returns early at line 59
with the pair (df_clean, empty frame): the confirmed-dead-zone set it
returns is empty, so no member of the invalid-signal set is confirmed. -/
theorem C1_amended (df : List Rec) (h1 : dfInvalidSignal df ≠ [])
    (h2 : dfValidSignal df = []) :
    analyze_data df = .noValidSignal (dfClean df) [] := by
  unfold dfInvalidSignal at h1
  unfold dfValidSignal at h2
  have hclean : dfClean df ≠ [] := filterP_ne_nil_of_base h1
  simp only [analyze_data]
  rw [if_neg hclean, if_pos h2]

/-- C1, witness for the amended theorem at the concrete input [recInv]. -/
theorem C1_amended_witness :
    analyze_data [recInv] = .noValidSignal (dfClean [recInv]) [] :=
  C1_amended [recInv] (by rw [dfInvalidSignal_Inv]; simp) dfValidSignal_Inv

/-- C2.  When both the valid-signal set V and the invalid-signal set I
are non-empty, analyze_data returns the valid-signal set together with
exactly those members of I that have zero members of V within 10 meters
of ground (haversine) distance on the sphere of radius 6371000 m. -/
theorem C2_confirmer_contract (df : List Rec)
    (h1 : dfValidSignal df ≠ []) (h2 : dfInvalidSignal df ≠ []) :
    analyze_data df =
      .full (dfValidSignal df)
        (specConfirmed (dfValidSignal df) (dfInvalidSignal df)) := by
  unfold dfValidSignal at h1 ⊢
  unfold dfInvalidSignal at h2 ⊢
  have hclean : dfClean df ≠ [] := filterP_ne_nil_of_base h1
  simp only [analyze_data]
  rw [if_neg hclean, if_neg h1, if_pos ⟨h2, h1⟩, confirmedNoSignal_eq_spec]

/-- C2, witness: the two spec scenarios.  One valid point at
(10, 20) and one invalid point at (10.00005, 20), about 5.5 m apart,
give an empty confirmed set; moving the valid point to (10.01, 20),
about 1.1 km away, confirms the invalid point. -/
theorem C2_confirmer_contract_witness :
    analyze_data [recVA, recIA] = .full [recVA] [] ∧
    analyze_data [recVB, recIA] = .full [recVB] [recIA] := by
  have hspecA : specConfirmed [recVA] [recIA] = [] := by
    rw [← confirmedNoSignal_eq_spec, confirmed_single, if_pos nearPred_VA_IA]
  have hspecB : specConfirmed [recVB] [recIA] = [recIA] := by
    rw [← confirmedNoSignal_eq_spec, confirmed_single,
      if_neg not_nearPred_VB_IA]
  constructor
  · have h := C2_confirmer_contract [recVA, recIA]
      (by rw [dfValidSignal_VA_IA]; simp)
      (by rw [dfInvalidSignal_VA_IA]; simp)
    rw [dfValidSignal_VA_IA, dfInvalidSignal_VA_IA, hspecA] at h
    exact h
  · have h := C2_confirmer_contract [recVB, recIA]
      (by rw [dfValidSignal_VB_IA]; simp)
      (by rw [dfInvalidSignal_VB_IA]; simp)
    rw [dfValidSignal_VB_IA, dfInvalidSignal_VB_IA, hspecB] at h
    exact h

/-- C3, counterexample.  The claim states the 10-meter boundary is open:
a valid point at ground distance exactly 10.0 m is not counted and does
not prevent confirmation.  In the code the radius query counts points at
metric distance at most r, so the valid row recV3, at ground distance
exactly 10 m from the invalid row recI3, is counted (count 1) and the
analysis confirms nothing. -/
theorem C3_counterexample :
    groundDist recV3 recI3 = 10 ∧ neighborCount [recV3] recI3 = 1 ∧
    analyze_data [recV3, recI3] = .full [recV3] [] :=
  ⟨groundDist_V3_I3, neighborCount_V3, analyze_exC3⟩

/-- C3, amended.  The 10-meter radius is a closed boundary: a
valid-signal point is counted as a nearby neighbor exactly when its
ground distance is at most 10 m.  A valid point at exactly 10.0 m is
counted and prevents confirmation, and a valid point at 9.99 m is
likewise counted and causes exclusion from the confirmed set. -/
theorem C3_boundary_closed :
    (∀ p q : Rec, nearPred p q ↔ groundDist p q ≤ 10) ∧
    groundDist recV3 recI3 = 10 ∧ neighborCount [recV3] recI3 = 1 ∧
    analyze_data [recV3, recI3] = .full [recV3] [] ∧
    groundDist recV3b recI3 = 9.99 ∧ neighborCount [recV3b] recI3 = 1 ∧
    analyze_data [recV3b, recI3] = .full [recV3b] [] :=
  ⟨nearPred_iff_groundDist, groundDist_V3_I3, neighborCount_V3, analyze_exC3,
    groundDist_V3b_I3, neighborCount_V3b, analyze_exC3b⟩

/-- C3, witness: the boundary characterization applied at the concrete
pair of rows at ground distance exactly 10 m. -/
theorem C3_boundary_closed_witness : nearPred recV3 recI3 :=
  (C3_boundary_closed.1 recV3 recI3).mpr (le_of_eq groundDist_V3_I3)

/-- C4, counterexample.  The claim states the three signal classes cover
the validated set.  The row recNaN has usable coordinates but a missing
signal strength, is a member of the validated set, and belongs to none
of the three classes. -/
theorem C4_counterexample :
    recNaN ∈ dfClean [recNaN] ∧
    ¬ (sigValid recNaN ∨ sigInvalid recNaN ∨ sigSentinel recNaN) := by
  constructor
  · rw [dfClean_single isClean_NaN]
    exact List.mem_singleton_self recNaN
  · norm_num [sigValid, sigInvalid, sigSentinel, recNaN]

/-- C4, amended.  Restricted to validated records whose signal strength
is present, the three classes valid-signal (-150 < s < 0),
invalid-signal (s <= -150) and excluded-sentinel (s >= 0) are pairwise
disjoint and cover; the boundary values -150 and 0 are excluded from the
valid range; and every member of the valid-signal set has a present
strength strictly between -150 and 0. -/
theorem C4_amended (df : List Rec) :
    (∀ r ∈ dfClean df, ∀ s : ℝ, r.signal = some s →
      (sigValid r ∨ sigInvalid r ∨ sigSentinel r) ∧
      ¬ (sigValid r ∧ sigInvalid r) ∧
      ¬ (sigValid r ∧ sigSentinel r) ∧
      ¬ (sigInvalid r ∧ sigSentinel r) ∧
      ((s = -150 ∨ s = 0) → ¬ sigValid r)) ∧
    ∀ r ∈ dfValidSignal df, ∃ s : ℝ, r.signal = some s ∧ -150 < s ∧ s < 0 := by
  constructor
  · intro r _ s hs
    simp only [sigValid, sigInvalid, sigSentinel, hs, optHolds_some]
    refine ⟨?_, ?_, ?_, ?_, ?_⟩
    · rcases le_or_lt s (-150) with h | h
      · exact Or.inr (Or.inl h)
      · rcases lt_or_le s 0 with h2 | h2
        · exact Or.inl ⟨h, h2⟩
        · exact Or.inr (Or.inr h2)
    · rintro ⟨⟨h1, -⟩, h2⟩
      linarith
    · rintro ⟨⟨-, h1⟩, h2⟩
      linarith
    · rintro ⟨h1, h2⟩
      linarith
    · rintro (rfl | rfl) ⟨h1, h2⟩ <;> linarith
  · intro r hr
    unfold dfValidSignal at hr
    rw [mem_filterP] at hr
    obtain ⟨-, hv⟩ := hr
    unfold sigValid at hv
    cases hsig : r.signal with
    | none => rw [hsig] at hv; exact hv.elim
    | some s => rw [hsig] at hv; exact ⟨s, rfl, hv⟩

/-- C4, witness: the cover applied to the concrete validated row recVA
with strength -80. -/
theorem C4_amended_witness :
    sigValid recVA ∨ sigInvalid recVA ∨ sigSentinel recVA :=
  ((C4_amended [recVA]).1 recVA
    (by rw [dfClean_single isClean_VA]; exact List.mem_singleton_self recVA)
    (-80) rfl).1

/-- C5.  The totals accumulated by the upload loop equal the sum over
sources of the per-source span (last timestamp minus first timestamp of
the timestamp-sorted validated rows) and the sum over sources of the
haversine distances in kilometers between each consecutive pair of
sorted rows; a source with fewer than two such rows contributes zero
distance. -/
theorem C5_aggregator (files : List (List Rec)) :
    (processFiles files).1 = (files.map (fun f => spanSpec (prepFile f))).sum ∧
    (processFiles files).2 = (files.map (fun f => pathSum (prepFile f))).sum ∧
    ∀ f : List Rec, (prepFile f).length < 2 → fileDistance f = 0 := by
  have hdur : files.map fileDuration = files.map (fun f => spanSpec (prepFile f)) := by
    induction files with
    | nil => rfl
    | cons f t ih => rw [List.map_cons, List.map_cons, ih, fileDuration_eq_spanSpec]
  have hdist : files.map fileDistance = files.map (fun f => pathSum (prepFile f)) := by
    clear hdur
    induction files with
    | nil => rfl
    | cons f t ih => rw [List.map_cons, List.map_cons, ih, fileDistance_eq_pathSum]
  refine ⟨?_, ?_, ?_⟩
  · rw [processFiles, processFiles_loop, ← hdur]
    show 0 + (files.map fileDuration).sum = _
    rw [zero_add]
  · rw [processFiles, processFiles_loop, ← hdist]
    show 0 + (files.map fileDistance).sum = _
    rw [zero_add]
  · intro f h
    rw [fileDistance_eq_pathSum, pathSum_short _ (by omega)]

/-- C5, witness: the aggregator applied at a concrete source list, with
the short-source hypothesis discharged on the empty source. -/
theorem C5_aggregator_witness :
    (prepFile ([] : List Rec)).length < 2 ∧ fileDistance ([] : List Rec) = 0 := by
  have h : (prepFile ([] : List Rec)).length < 2 := by
    show (0 : ℕ) < 2
    norm_num
  exact ⟨h, (C5_aggregator []).2.2 [] h⟩

/-- C6.  The claim states that empty-input conditions never raise
anywhere in the pipeline and that downstream consumption of the analysis
result succeeds.  On an input whose validated set is empty — here one
row carrying the (0, 0) placeholder coordinates — analyze_data returns
the single frame df_clean instead of a pair, and the tuple unpacking at
app.py line 84 fails on it (ValueError), modelled by consume returning
none. -/
theorem C6_empty_validated_crash :
    analyze_data [recZero] = .cleanEmpty [] ∧
    consume (analyze_data [recZero]) = none := by
  refine ⟨analyze_exZero, ?_⟩
  rw [analyze_exZero]
  rfl

/-- C7, counterexample.  The claim states analyze_data never mutates the
caller's input, its Latitude and Longitude columns included.  On an
input whose Latitude cell holds a non-numeric token, the in-place column
coercion of lines 30-31 changes the caller's frame. -/
theorem C7_counterexample : analyze_data_post [recText] ≠ [recText] := by
  intro h
  simp [analyze_data_post, coerceRec, recText, toNumericRV] at h

/-- C7, amended.  analyze_data overwrites the input frame's Latitude and
Longitude columns with the coerced values (non-numeric text becomes
NaN); every other column of every row is preserved, rows whose
coordinate cells are already numeric or NaN are left unchanged, and an
input all of whose coordinate cells are numeric or NaN is unchanged as a
whole. -/
theorem C7_amended (df : List Rec) :
    analyze_data_post df = df.map coerceRec ∧
    (∀ r ∈ df, (coerceRec r).signal = r.signal ∧
      (coerceRec r).networkType = r.networkType ∧
      (coerceRec r).band = r.band ∧ (coerceRec r).time = r.time) ∧
    (∀ r ∈ df, numOrNan r.lat ∧ numOrNan r.lon → coerceRec r = r) ∧
    ((∀ r ∈ df, numOrNan r.lat ∧ numOrNan r.lon) → analyze_data_post df = df) := by
  have hfix : ∀ r : Rec, numOrNan r.lat ∧ numOrNan r.lon → coerceRec r = r := by
    rintro ⟨la, lo, s, n, b, t⟩ ⟨h1, h2⟩
    have hred : coerceRec ⟨la, lo, s, n, b, t⟩
        = ⟨toNumericRV la, toNumericRV lo, s, n, b, t⟩ := rfl
    rw [hred, toNumericRV_of_numOrNan h1, toNumericRV_of_numOrNan h2]
  have hmap : ∀ l : List Rec,
      (∀ r ∈ l, numOrNan r.lat ∧ numOrNan r.lon) → l.map coerceRec = l := by
    intro l
    induction l with
    | nil => intro _; rfl
    | cons r t ih =>
      intro hall
      rw [List.map_cons, hfix r (hall r (List.mem_cons_self r t)),
        ih (fun a ha => hall a (List.mem_cons_of_mem r ha))]
  refine ⟨rfl, ?_, fun r _ h => hfix r h, fun hall => hmap df hall⟩
  rintro ⟨la, lo, s, n, b, t⟩ -
  exact ⟨rfl, rfl, rfl, rfl⟩

/-- C7, witness for the amended theorem: a row with numeric coordinates
is left unchanged by the coercion. -/
theorem C7_amended_witness : coerceRec recVA = recVA :=
  (C7_amended [recVA]).2.2.1 recVA (List.mem_singleton_self recVA)
    ⟨trivial, trivial⟩

/-- C8.  Dead-zone confirmation is antitone in the valid-signal set:
adding a valid row p to V can only remove rows from the confirmed set,
never add one. -/
theorem C8_antitone (V I : List Rec) (p : Rec) :
    confirmedNoSignal (p :: V) I ⊆ confirmedNoSignal V I := by
  intro q hq
  unfold confirmedNoSignal at hq ⊢
  rw [mem_filterP] at hq ⊢
  obtain ⟨hI, hc⟩ := hq
  refine ⟨hI, ?_⟩
  rw [neighborCount_eq_zero_iff] at hc ⊢
  intro r hr
  exact hc r (List.mem_cons_of_mem p hr)

/-- C8, witness: a concrete membership transported along the inclusion,
for the far-away valid row recVB. -/
theorem C8_antitone_witness : recIA ∈ confirmedNoSignal [] [recIA] := by
  apply C8_antitone [] [recIA] recVB
  rw [confirmed_single recVB recIA, if_neg not_nearPred_VB_IA]
  exact List.mem_singleton_self recIA

/-- C9.  The validator's output contains exactly the input rows whose
latitude and longitude are both numeric, non-null and not exactly zero,
and its size is at most the input size. -/
theorem C9_validator (df : List Rec) :
    (∀ r : Rec, r ∈ dfClean df ↔ r ∈ df ∧ goodCoords r) ∧
    (dfClean df).length ≤ df.length := by
  constructor
  · intro r
    rw [mem_dfClean, isClean_iff_goodCoords]
  · rw [dfClean_eq]
    exact length_filterP_le isClean df

/-- C9, witness: the membership characterization applied at a concrete
row with usable coordinates. -/
theorem C9_validator_witness : recVA ∈ dfClean [recVA] :=
  ((C9_validator [recVA]).1 recVA).mpr
    ⟨List.mem_singleton_self recVA, (isClean_iff_goodCoords recVA).mp isClean_VA⟩

/-- C10.  A validated record whose signal strength is missing belongs to
neither the valid-signal set nor the invalid-signal set, and satisfies
none of the three class predicates, so it vanishes from both analysis
branches and the classes do not cover the validated set. -/
theorem C10_nan_invisible (df : List Rec) (r : Rec) (_hr : r ∈ dfClean df)
    (hs : r.signal = none) :
    r ∉ dfValidSignal df ∧ r ∉ dfInvalidSignal df ∧
    ¬ sigValid r ∧ ¬ sigInvalid r ∧ ¬ sigSentinel r := by
  have hv : ¬ sigValid r := by simp [sigValid, hs]
  have hi : ¬ sigInvalid r := by simp [sigInvalid, hs]
  have hn : ¬ sigSentinel r := by simp [sigSentinel, hs]
  refine ⟨?_, ?_, hv, hi, hn⟩
  · unfold dfValidSignal
    rw [mem_filterP]
    rintro ⟨-, h⟩
    exact hv h
  · unfold dfInvalidSignal
    rw [mem_filterP]
    rintro ⟨-, h⟩
    exact hi h

/-- C10, witness: the NaN-strength row recNaN inside its one-row frame. -/
theorem C10_nan_invisible_witness : ¬ sigValid recNaN :=
  (C10_nan_invisible [recNaN] recNaN
    (by rw [dfClean_single isClean_NaN]; exact List.mem_singleton_self recNaN)
    rfl).2.2.1
